import Mathlib

/-!
Verification development for the bookMarking repository (src/app.py and
src/appv2.py): a shallow embedding of the bookmark manager's core logic —
row deletion against a header-offset spreadsheet, duplicate detection over
bookmark records, URL validation, the save-bookmark handler, the bookmark
fetch with schema filling, and the display (reverse + search filter)
pipeline — together with theorems settling the specification claims.

Modelling conventions: the spreadsheet worksheet is the list of its
physical rows (1-based in the API, so list position k is physical row
k+1); string lowercasing/trimming is the ASCII behaviour of the Python
operations used by the source; fallible remote calls are `Except` values.
-/

namespace BookMarking

/-- A physical spreadsheet row: the list of its cell values. -/
abbrev Row := List String

/-- Model of the gspread call `worksheet.delete_rows(n)`: `n` is a 1-based
physical row number; a row number outside the sheet's physical rows makes
the API raise (modelled as `.error`), otherwise exactly that row is
removed. -/
def delete_rows (sheet : List Row) (n : Int) : Except String (List Row) :=
  if 1 ≤ n ∧ n ≤ sheet.length then
    .ok (sheet.eraseIdx (n - 1).toNat)
  else
    .error "requested range exceeds grid limits"

/-- Embedding of `delete_bookmark` (src/appv2.py lines 194-221): computes
`sheet_row_number = row_index + 2` and calls `worksheet.delete_rows` on it.
No other check is performed on `row_index`. -/
def delete_bookmark (row_index : Int) (sheet : List Row) : Except String (List Row) :=
  delete_rows sheet (row_index + 2)

/-- A bookmark record: the six columns of the sheet, in header order. -/
structure Record where
  date : String
  title : String
  url : String
  category : String
  tags : String
  notes : String
deriving DecidableEq, Repr

/-- ASCII model of Python `str.lower` on one character. -/
def pyLowerChar (c : Char) : Char :=
  if 65 ≤ c.toNat ∧ c.toNat ≤ 90 then Char.ofNat (c.toNat + 32) else c

/-- The whitespace class of Python `str.strip` (ASCII part): space, tab,
newline, carriage return, vertical tab, form feed. -/
def pyIsSpace (c : Char) : Bool :=
  c = ' ' || c = '\t' || c = '\n' || c = '\r' || c = '\x0b' || c = '\x0c'

/-- Model of Python `str.lower` (ASCII letters). -/
def pyLower (s : String) : String :=
  ⟨s.data.map pyLowerChar⟩

/-- Model of Python `str.strip` with no argument: drop leading and
trailing whitespace. -/
def pyStrip (s : String) : String :=
  ⟨((s.data.dropWhile pyIsSpace).reverse.dropWhile pyIsSpace).reverse⟩

/-- The normalized duplicate key of src/appv2.py line 238:
`df["url"].str.lower().str.strip()` — lowercase the url, then trim
surrounding whitespace. -/
def urlKey (r : Record) : String :=
  pyStrip (pyLower r.url)

/-- A pandas data frame as `find_duplicates` sees it: the bookmark rows
plus the optional `url_lower` helper column, which is absent on frames
fresh from `get_bookmarks` and is written onto the input frame by
`find_duplicates` itself (src/appv2.py line 238). -/
structure Frame where
  rows : List Record
  urlLower : Option (List String)
deriving DecidableEq, Repr

/-- The mark of pandas `df.duplicated(subset=["url_lower"], keep=False)`:
a row is marked exactly when its normalized key occurs in at least two rows
of the frame. -/
def isSharedKey (rows : List Record) (r : Record) : Bool :=
  2 ≤ rows.countP (fun s => urlKey s = urlKey r)

/-- The row comparison of `duplicates.sort_values("url")`: by the raw
`url` cell, Python code-point string order (lexicographic order on the
character sequences). -/
def urlLe (a b : Record) : Prop :=
  a.url.data ≤ b.url.data

instance : DecidableRel urlLe :=
  fun a b => inferInstanceAs (Decidable (a.url.data ≤ b.url.data))

instance : IsTotal Record urlLe :=
  ⟨fun a b => le_total a.url.data b.url.data⟩

instance : IsTrans Record urlLe :=
  ⟨fun _ _ _ h1 h2 => le_trans h1 h2⟩

/-- Embedding of `find_duplicates` (src/appv2.py lines 224-242). An empty
frame returns an empty frame untouched. Otherwise the function writes the
`url_lower` column onto its input frame, keeps the rows marked by
`duplicated(keep=False)`, drops the helper column and sorts the survivors
by the raw `url` cell (`sort_values("url")`). The pandas default sort
(`kind="quicksort"`) leaves the relative order of rows with equal `url`
cells unspecified; the model must pick one concrete sort to be executable,
but no theorem relies on how it orders such ties. The first component is
the input frame as it is left after the call, the second the returned
duplicates frame. -/
def find_duplicates (df : Frame) : Frame × Frame :=
  if df.rows.isEmpty then
    (df, ⟨[], none⟩)
  else
    let keyed : Frame := ⟨df.rows, some (df.rows.map urlKey)⟩
    let dups := df.rows.filter (fun r => isSharedKey df.rows r)
    (keyed, ⟨List.insertionSort urlLe dups, none⟩)

/-- Modelled from the spec, section 4.3, for comparison with the code:
`findGroups` as the spec words it — one group per normalized key held by at
least two records, groups ordered by the key's lexicographic order, each
group listing its records in store order. -/
def specFindGroups (rows : List Record) : List (List Record) :=
  (List.insertionSort (fun a b : String => a.data ≤ b.data) (rows.map urlKey).dedup).filterMap
    (fun k =>
      let g := rows.filter (fun r => urlKey r = k)
      if 2 ≤ g.length then some g else none)

/-- First record of the C4 counterexample store: url `b.com`. -/
def dupA : Record :=
  ⟨"2024-01-01 10:00:00", "first", "b.com", "Tools", "", ""⟩

/-- Second record of the C4 counterexample store: url `B.com`, same
normalized key as `dupA`. -/
def dupB : Record :=
  ⟨"2024-01-02 10:00:00", "second", "B.com", "Tools", "", ""⟩

/-- A single bookmark record used by concrete counterexamples. -/
def soloR : Record :=
  ⟨"2024-01-03 09:00:00", "solo", "https://solo.example", "Tools", "", ""⟩

/-- The scheme and host fields of a parsed URL, the two fields
`validate_url` reads (`result.scheme`, `result.netloc`). -/
structure UrlParts where
  scheme : String
  netloc : String
deriving DecidableEq, Repr

/-- The leading characters `urlsplit` strips: C0 control characters and
space. -/
def isC0OrSpace (c : Char) : Bool :=
  c.toNat ≤ 32

/-- The characters `urlsplit` removes everywhere in the url: tab, carriage
return, newline. -/
def isUnsafeUrlChar (c : Char) : Bool :=
  c = '\t' || c = '\r' || c = '\n'

/-- Characters allowed in a URL scheme after its first character: ASCII
letters, digits, plus, minus, dot. -/
def isSchemeChar (c : Char) : Bool :=
  c.isAlpha || c.isDigit || c = '+' || c = '-' || c = '.'

/-- Scheme extraction of `urlsplit`: if the url has a colon at position
`i > 0`, its first character is an ASCII letter and every character before
the colon is a scheme character, the scheme is the lowercased text before
the colon and parsing continues after it; otherwise the scheme is empty
and the url is left whole. -/
def splitScheme (cs : List Char) : List Char × List Char :=
  match cs.findIdx? (· = ':') with
  | none => ([], cs)
  | some i =>
    match cs with
    | [] => ([], [])
    | c0 :: rest =>
      if 0 < i ∧ c0.isAlpha ∧ (rest.take (i - 1)).all isSchemeChar then
        ((cs.take i).map pyLowerChar, cs.drop (i + 1))
      else ([], cs)

/-- Netloc extraction of `urlsplit`: when the remaining url starts with
two slashes, the netloc is the text after them up to the first slash,
question mark or hash. -/
def splitNetloc (cs : List Char) : List Char :=
  match cs with
  | '/' :: '/' :: rest => rest.takeWhile (fun c => !(c = '/' || c = '?' || c = '#'))
  | _ => []

/-- Model of Python `urllib.parse.urlparse` restricted to the fields the
source reads: scheme and netloc. Sanitizes the url (leading C0/space
strip, tab/CR/LF removal), extracts scheme and netloc, and raises
(`.error`) on a netloc with an unmatched square bracket, as CPython does.
The checks CPython applies to non-ASCII netlocs and to the inside of a
bracketed host are outside the modelled fragment; they never fire on the
ASCII, unbracketed urls handled in this development. -/
def urlsplitE (url : String) : Except String UrlParts :=
  let cs := (url.data.dropWhile isC0OrSpace).filter (fun c => !isUnsafeUrlChar c)
  let sr := splitScheme cs
  let netloc := splitNetloc sr.2
  if ('[' ∈ netloc ∧ ']' ∉ netloc) ∨ (']' ∈ netloc ∧ '[' ∉ netloc) then
    .error "Invalid IPv6 URL"
  else
    .ok ⟨⟨sr.1⟩, ⟨netloc⟩⟩

/-- Embedding of `validate_url` (src/appv2.py lines 245-259, identical in
src/app.py lines 168-174): parse the url, return whether both scheme and
netloc are non-empty, and map any parse exception to `False`. -/
def validate_url (url : String) : Bool :=
  match urlsplitE url with
  | .error _ => false
  | .ok r => decide (r.scheme ≠ "" ∧ r.netloc ≠ "")

/-- Outcome reported by the Save Bookmark handler. -/
inductive SaveOutcome where
  | saved
  | invalidUrl
  | missingField
deriving DecidableEq, Repr

/-- Embedding of `save_bookmark` (src/appv2.py lines 158-191): appends the
six cells of the record as one row at the end of the sheet. -/
def save_bookmark (r : Record) (sheet : List Row) : List Row :=
  sheet ++ [[r.date, r.title, r.url, r.category, r.tags, r.notes]]

/-- Embedding of the Save Bookmark handler (src/appv2.py lines 289-315,
identical in src/app.py lines 204-230): if url and title are both
non-empty and the url validates, the record is appended; an empty url or
title reports the missing-field error, a non-validating url the
invalid-url error, and in both error cases the sheet is untouched. -/
def saveBookmarkHandler (r : Record) (sheet : List Row) : SaveOutcome × List Row :=
  if r.url ≠ "" ∧ r.title ≠ "" then
    if validate_url r.url = false then (.invalidUrl, sheet)
    else (.saved, save_bookmark r sheet)
  else (.missingField, sheet)

/-- The string forms of the six record fields, in column order. -/
def rowFields (r : Record) : List String :=
  [r.date, r.title, r.url, r.category, r.tags, r.notes]

/-- Model of the ASCII-prefix test used by the substring scan: does `s`
start with `pat`. -/
def startsWithChars (pat s : List Char) : Bool :=
  match pat, s with
  | [], _ => true
  | _ :: _, [] => false
  | p :: ps, c :: cs => p = c && startsWithChars ps cs

/-- Occurrence of `pat` as a contiguous run inside `s`. -/
def occursIn (pat s : List Char) : Bool :=
  match s with
  | [] => pat.isEmpty
  | _ :: cs => startsWithChars pat s || occursIn pat cs

/-- Model of pandas `.str.contains(pat, case=False)` for a literal
pattern: case-insensitive substring occurrence (both sides lowercased). -/
def containsCI (hay pat : String) : Bool :=
  occursIn (pat.data.map pyLowerChar) (hay.data.map pyLowerChar)

/-- Embedding of the src/app.py display pipeline (lines 252-262): reverse
the fetched rows (newest first); with a non-empty search query keep only
the rows where some of the six columns contains the query
case-insensitively. An empty query string is falsy in Python, so it
filters nothing. -/
def displayApp (df : List Record) (q : String) : List Record :=
  let rev := df.reverse
  if q = "" then rev
  else rev.filter (fun r => (rowFields r).any (fun f => containsCI f q))

/-- Embedding of the src/appv2.py tab-1 display pipeline (lines 348-362):
reverse the fetched rows, attach the `original_index` column
`range(len(df)-1, -1, -1)`, and with a non-empty search query keep only
the rows where some column — the six fields or the string form of
`original_index` — contains the query case-insensitively. -/
def displayV2 (df : List Record) (q : String) : List (Record × Nat) :=
  let base := df.reverse.zip ((List.range df.length).reverse)
  if q = "" then base
  else base.filter (fun p => (rowFields p.1 ++ [toString p.2]).any (fun f => containsCI f q))

/-- A record none of whose six fields contains the character `0`. -/
def plainR : Record :=
  ⟨"d", "t", "u", "c", "g", "n"⟩

/-- A pandas data frame at the `get_bookmarks` boundary: the column names,
and the rows as returned by `worksheet.get_all_records()` — each row the
association list from column name to cell value. -/
structure KeyedFrame where
  cols : List String
  rows : List (List (String × String))
deriving DecidableEq, Repr

/-- The required columns of src/appv2.py line 110. -/
def requiredColumns : List String :=
  ["date", "title", "url", "category", "tags", "notes"]

/-- Model of `pd.DataFrame(data)` on the keyed records returned by
`get_all_records`: the columns are the record keys (every record carries
the sheet header's keys, so they are read off the first record), and an
empty record list gives a frame with no columns at all. -/
def dfOfRecords (recs : List (List (String × String))) : KeyedFrame :=
  ⟨(recs.head?.map (fun r => r.map Prod.fst)).getD [], recs⟩

/-- The column-filling loop of src/appv2.py lines 110-113: each required
column not present in the frame is appended, with the empty string in
every row. -/
def fillMissing (df : KeyedFrame) : List String → KeyedFrame
  | [] => df
  | c :: cs =>
    fillMissing
      (if c ∈ df.cols then df
       else ⟨df.cols ++ [c], df.rows.map (fun r => r ++ [(c, "")])⟩) cs

/-- Embedding of `get_bookmarks` (src/appv2.py lines 85-155, identical in
src/app.py lines 74-138): a successful fetch builds the frame from the
records and fills the missing required columns with empty strings; a
connection that is unavailable or a fetch that raises yields the empty
frame with exactly the six required columns — the function never
propagates the exception. -/
def get_bookmarks (conn : Except String (List (List (String × String)))) : KeyedFrame :=
  match conn with
  | .error _ => ⟨requiredColumns, []⟩
  | .ok recs => fillMissing (dfOfRecords recs) requiredColumns

/-- Read a column of the frame: for each row, the value stored under the
column name (empty when the row has no such key). -/
def getCol (df : KeyedFrame) (c : String) : List String :=
  df.rows.map (fun r => ((r.find? (fun p => p.1 = c)).map Prod.snd).getD "")

/-! Theorems. -/

/-- C1: for every logical index `i`, `delete_bookmark` converts `i` to the
physical row `i + 2` and deletes exactly that single physical row: the
result keeps physical rows `1..i+1` and `i+3..` unchanged and in order
(so `remove 0` deletes physical row 2 and `remove 2` deletes physical
row 4). -/
theorem delete_bookmark_deletes_physical_row (sheet : List Row) (i : Nat)
    (h : i + 2 ≤ sheet.length) :
    delete_bookmark i sheet = .ok (sheet.take (i + 1) ++ sheet.drop (i + 2)) := by
  unfold delete_bookmark delete_rows
  have h1 : (1 : Int) ≤ (i : Int) + 2 := by omega
  have h2 : (i : Int) + 2 ≤ (sheet.length : Int) := by exact_mod_cast h
  rw [if_pos ⟨h1, h2⟩]
  have h3 : ((i : Int) + 2 - 1).toNat = i + 1 := by omega
  rw [h3, List.eraseIdx_eq_take_drop_succ]

/-- Witness for C1 on a store with a header plus three data rows:
`remove 0` deletes physical row 2 and `remove 2` deletes physical row 4. -/
theorem delete_bookmark_deletes_physical_row_witness :
    delete_bookmark 0 [["h"], ["r1"], ["r2"], ["r3"]] = .ok [["h"], ["r2"], ["r3"]] ∧
    delete_bookmark 2 [["h"], ["r1"], ["r2"], ["r3"]] = .ok [["h"], ["r1"], ["r2"]] := by
  constructor
  · have hw := delete_bookmark_deletes_physical_row [["h"], ["r1"], ["r2"], ["r3"]] 0
      (by decide)
    simpa using hw
  · have hw := delete_bookmark_deletes_physical_row [["h"], ["r1"], ["r2"], ["r3"]] 2
      (by decide)
    simpa using hw

/-- C2 counterexample: `delete_bookmark (-1)` on a store with a header and
three data rows does not fail with an index error — it succeeds and removes
the header row, so the store is changed although the logical index `-1` is
outside `[0, 3)`. -/
theorem delete_bookmark_negative_index_counterexample :
    delete_bookmark (-1) [["h"], ["r1"], ["r2"], ["r3"]] = .ok [["r1"], ["r2"], ["r3"]] ∧
    ([["r1"], ["r2"], ["r3"]] : List Row) ≠ [["h"], ["r1"], ["r2"], ["r3"]] := by
  exact ⟨rfl, by decide⟩

/-- C2 amended: `delete_bookmark` performs no logical-bounds validation.
Whenever the computed physical row `i + 2` lies within the sheet's physical
rows (including `i = -1`, which targets the header row, and any `i` reaching
into padding rows past the data), that physical row is deleted and success
is reported; only when `i + 2` falls outside the physical sheet entirely
does the call fail, with the underlying store error, and the sheet is then
untouched. -/
theorem delete_bookmark_bounds (sheet : List Row) (i : Int) :
    (1 ≤ i + 2 → i + 2 ≤ (sheet.length : Int) →
      delete_bookmark i sheet = .ok (sheet.eraseIdx (i + 1).toNat)) ∧
    (i + 2 < 1 ∨ (sheet.length : Int) < i + 2 →
      delete_bookmark i sheet = .error "requested range exceeds grid limits") := by
  constructor
  · intro h1 h2
    unfold delete_bookmark delete_rows
    rw [if_pos ⟨h1, h2⟩]
    have h3 : (i + 2 - 1).toNat = (i + 1).toNat := by omega
    rw [h3]
  · intro h
    unfold delete_bookmark delete_rows
    rw [if_neg (by omega)]

/-- Witness for the amended C2: a physically in-range negative index
deletes the header, and a physically out-of-range index yields the store
error. -/
theorem delete_bookmark_bounds_witness :
    delete_bookmark (-1) [["h"], ["r1"]] = .ok [["r1"]] ∧
    delete_bookmark 5 [["h"], ["r1"]] = .error "requested range exceeds grid limits" := by
  constructor
  · have hw := (delete_bookmark_bounds [["h"], ["r1"]] (-1)).1 (by decide) (by decide)
    simpa using hw
  · exact (delete_bookmark_bounds [["h"], ["r1"]] 5).2 (by decide)

/-- C3: the duplicates frame contains exactly the input records whose
normalized key `trim(lowercase(url))` is shared by at least two input
records; in particular, when every record's key is unique the result is
empty. -/
theorem find_duplicates_membership (df : Frame) (r : Record) :
    (r ∈ (find_duplicates df).2.rows ↔
      r ∈ df.rows ∧ 2 ≤ df.rows.countP (fun s => urlKey s = urlKey r)) ∧
    ((∀ s ∈ df.rows, df.rows.countP (fun t => urlKey t = urlKey s) = 1) →
      (find_duplicates df).2.rows = []) := by
  unfold find_duplicates
  by_cases hE : df.rows.isEmpty
  · rw [if_pos hE]
    have hnil : df.rows = [] := List.isEmpty_iff.mp hE
    constructor
    · simp [hnil]
    · intro _; rfl
  · rw [if_neg hE]
    constructor
    · rw [(List.perm_insertionSort urlLe _).mem_iff, List.mem_filter]
      simp [isSharedKey]
    · intro hUniq
      have hfil : df.rows.filter (fun r => isSharedKey df.rows r) = [] := by
        apply List.filter_eq_nil_iff.mpr
        intro a ha
        simp only [isSharedKey, decide_eq_true_eq]
        rw [hUniq a ha]
        omega
      simp only [hfil]
      rfl

/-- Witness for C3: a store whose three urls are pairwise distinct after
normalization yields an empty duplicates frame. -/
theorem find_duplicates_membership_witness :
    (find_duplicates ⟨[⟨"d1", "t1", "https://a.example", "Tools", "", ""⟩,
                      ⟨"d2", "t2", "https://b.example", "Tools", "", ""⟩,
                      ⟨"d3", "t3", "https://c.example", "Tools", "", ""⟩], none⟩).2.rows = [] := by
  exact (find_duplicates_membership _ ⟨"d1", "t1", "https://a.example", "Tools", "", ""⟩).2
    (by decide)

/-- C4 counterexample: on the store `[dupA, dupB]` — one duplicate group
with key `b.com`, store order `dupA` then `dupB` — the code returns
`[dupB, dupA]` because it sorts by the raw `url` cell (`B.com` precedes
`b.com` in code-point order), while the claimed ordering (groups in
normalized-key order, store order within a group) demands `[dupA, dupB]`. -/
theorem find_duplicates_order_counterexample :
    (find_duplicates ⟨[dupA, dupB], none⟩).2.rows = [dupB, dupA] ∧
    (specFindGroups [dupA, dupB]).flatten = [dupA, dupB] ∧
    ([dupB, dupA] : List Record) ≠ [dupA, dupB] := by
  refine ⟨by decide, by decide, by decide⟩

/-- C4 amended: the duplicates frame is a permutation of the shared-key
records, arranged in nondecreasing order of the raw `url` cell (code-point
order) — not of the normalized key. The relative order of records with
identical raw urls is not specified (the pandas default sort is not
stable), and records of one normalized-key group whose raw urls differ in
case are reordered by raw url, so groups can interleave. -/
theorem find_duplicates_sorted_by_raw_url (df : Frame) :
    (find_duplicates df).2.rows.Perm
      (df.rows.filter (fun r => isSharedKey df.rows r)) ∧
    List.Sorted urlLe (find_duplicates df).2.rows := by
  unfold find_duplicates
  by_cases hE : df.rows.isEmpty
  · rw [if_pos hE]
    have hnil : df.rows = [] := List.isEmpty_iff.mp hE
    simp [hnil]
  · rw [if_neg hE]
    exact ⟨List.perm_insertionSort urlLe _, List.sorted_insertionSort urlLe _⟩

/-- C5 counterexample: `find_duplicates` modifies its input frame — after
the call on a one-record frame, the input carries a `url_lower` column it
did not have before. -/
theorem find_duplicates_mutates_input :
    (find_duplicates ⟨[soloR], none⟩).1 ≠ ⟨[soloR], none⟩ := by
  decide

/-- C5 amended: the duplicate grouping is deterministic with no hidden
state — it depends only on the input frame's rows (in particular not on any
leftover `url_lower` column), and equal inputs give equal groupings — but
the function is not free of side effects: on a non-empty input it writes
the `url_lower` column of normalized keys onto the input frame, where it
remains after the call. -/
theorem find_duplicates_deterministic (df e : Frame) (h : df.rows = e.rows) :
    (find_duplicates df).2 = (find_duplicates e).2 ∧
    (df.rows ≠ [] → (find_duplicates df).1 = ⟨df.rows, some (df.rows.map urlKey)⟩) := by
  constructor
  · unfold find_duplicates
    rw [h]
    by_cases hE : e.rows.isEmpty
    · rw [if_pos hE, if_pos hE]
    · rw [if_neg hE, if_neg hE]
  · intro hne
    unfold find_duplicates
    rw [if_neg (by simpa [List.isEmpty_iff] using hne)]

/-- Witness for the amended C5: frames with equal rows but different
leftover `url_lower` columns give the same grouping, and the call writes
the keys onto the input frame. -/
theorem find_duplicates_deterministic_witness :
    (find_duplicates ⟨[soloR], none⟩).2 = (find_duplicates ⟨[soloR], some ["x"]⟩).2 ∧
    (find_duplicates ⟨[soloR], none⟩).1 = ⟨[soloR], some ([soloR].map urlKey)⟩ := by
  exact ⟨(find_duplicates_deterministic ⟨[soloR], none⟩ ⟨[soloR], some ["x"]⟩ rfl).1,
    (find_duplicates_deterministic ⟨[soloR], none⟩ ⟨[soloR], some ["x"]⟩ rfl).2 (by decide)⟩

/-- C6: a candidate with an empty title or an empty url is rejected with
the missing-field error, and a candidate with non-empty title and url
whose url fails validation (no non-empty scheme and host) is rejected with
the invalid-url error; in both cases the sheet — what `fetchAll` would
read — is exactly what it was before. -/
theorem saveBookmarkHandler_validation (r : Record) (sheet : List Row) :
    ((r.title = "" ∨ r.url = "") →
      saveBookmarkHandler r sheet = (.missingField, sheet)) ∧
    (r.title ≠ "" → r.url ≠ "" → validate_url r.url = false →
      saveBookmarkHandler r sheet = (.invalidUrl, sheet)) := by
  constructor
  · intro h
    unfold saveBookmarkHandler
    rw [if_neg (by tauto)]
  · intro h1 h2 h3
    unfold saveBookmarkHandler
    rw [if_pos ⟨h2, h1⟩, if_pos h3]

/-- Witness for C6: an empty title is reported as a missing field, and a
url with no scheme is reported as invalid; the one-row sheet is unchanged
in both cases. -/
theorem saveBookmarkHandler_validation_witness :
    saveBookmarkHandler ⟨"d", "", "https://x.example", "Tools", "", ""⟩ [["h"]] =
      (.missingField, [["h"]]) ∧
    saveBookmarkHandler ⟨"d", "t", "x.example", "Tools", "", ""⟩ [["h"]] =
      (.invalidUrl, [["h"]]) := by
  constructor
  · exact (saveBookmarkHandler_validation _ _).1 (Or.inl rfl)
  · exact (saveBookmarkHandler_validation _ _).2 (by decide) (by decide) (by decide)

/-- C10: `validate_url` is total — on every string it returns a boolean,
and in particular on every input where the underlying url parse raises,
the exception handler turns the answer into `false` instead of
propagating. -/
theorem validate_url_total (url : String) :
    (validate_url url = true ∨ validate_url url = false) ∧
    (∀ e, urlsplitE url = .error e → validate_url url = false) := by
  constructor
  · cases h : validate_url url
    · exact Or.inr rfl
    · exact Or.inl rfl
  · intro e he
    unfold validate_url
    rw [he]

/-- Witness for C10: a url whose netloc has an unmatched bracket makes the
parse raise, and `validate_url` answers `false` on it. -/
theorem validate_url_total_witness :
    validate_url "http://[::1" = false := by
  exact (validate_url_total "http://[::1").2 "Invalid IPv6 URL" rfl

/-- C7: with no search query, both display pipelines list exactly the
reverse of the fetched store (newest first, since `append` places new
records last), and the appv2 pipeline tags the displayed rows with their
store indices `len-1, ..., 0`. -/
theorem display_no_filter (df : List Record) :
    displayApp df "" = df.reverse ∧
    (displayV2 df "").map Prod.fst = df.reverse ∧
    (displayV2 df "").map Prod.snd = (List.range df.length).reverse := by
  refine ⟨rfl, ?_, ?_⟩
  · unfold displayV2
    rw [if_pos rfl]
    exact List.map_fst_zip _ _ (by simp)
  · unfold displayV2
    rw [if_pos rfl]
    exact List.map_snd_zip _ _ (by simp)

/-- C8 counterexample: in appv2, searching for `0` on a one-record store
whose record contains `0` in none of its six fields still keeps the record
— the mask also scans the string form of the `original_index` column,
which is `0` here — refuting the claim that only records with the query in
one of the six fields are kept. -/
theorem displayV2_search_counterexample :
    displayV2 [plainR] "0" = [(plainR, 0)] ∧
    (∀ f ∈ rowFields plainR, containsCI f "0" = false) := by
  exact ⟨by decide, by decide⟩

/-- C8 amended: with a non-empty query, each filtered listing is a
subsequence of the unfiltered one; app.py keeps exactly the records with
the query as a case-insensitive substring of one of the six fields, while
appv2 keeps exactly the rows where the query occurs in one of the six
fields or in the decimal string of the row's `original_index` column. -/
theorem display_search_characterization (df : List Record) (q : String) (hq : q ≠ "") :
    (displayV2 df q).Sublist (displayV2 df "") ∧
    (∀ p, p ∈ displayV2 df q ↔ p ∈ displayV2 df "" ∧
      ((∃ f ∈ rowFields p.1, containsCI f q = true) ∨ containsCI (toString p.2) q = true)) ∧
    (displayApp df q).Sublist (displayApp df "") ∧
    (∀ r, r ∈ displayApp df q ↔ r ∈ displayApp df "" ∧
      ∃ f ∈ rowFields r, containsCI f q = true) := by
  unfold displayApp displayV2
  rw [if_neg hq, if_neg hq, if_pos rfl, if_pos rfl]
  refine ⟨List.filter_sublist _, ?_, List.filter_sublist _, ?_⟩
  · intro p
    rw [List.mem_filter]
    simp [List.any_eq_true]
  · intro r
    rw [List.mem_filter]
    simp [List.any_eq_true]

/-- Witness for the amended C8: searching `t` on a one-record store keeps
the record (its title is `t`), and the filtered appv2 listing is a
subsequence of the unfiltered one. -/
theorem display_search_characterization_witness :
    (displayV2 [plainR] "t").Sublist (displayV2 [plainR] "") ∧
    plainR ∈ displayApp [plainR] "t" := by
  refine ⟨(display_search_characterization [plainR] "t" (by decide)).1, ?_⟩
  exact ((display_search_characterization [plainR] "t" (by decide)).2.2.2 plainR).mpr
    ⟨by decide, ⟨"t", by decide, by decide⟩⟩

/-- A found pair stays found when the row is extended on the right. -/
theorem find?_append_some {α : Type} {p : α → Bool} {r : List α} {x : α}
    (l : List α) (h : r.find? p = some x) : (r ++ l).find? p = some x := by
  rw [List.find?_append, h]
  rfl

/-- A row whose keys avoid a column name has no pair for it. -/
theorem find?_eq_none_of_key_not_mem {c : String} :
    ∀ r : List (String × String), c ∉ r.map Prod.fst →
      r.find? (fun p => p.1 = c) = none := by
  intro r
  induction r with
  | nil => intro _; rfl
  | cons a r ih =>
    intro hnm
    have h1 : a.1 ≠ c := fun hEq => hnm (by simp [hEq.symm])
    have h2 : c ∉ r.map Prod.fst := fun hm => hnm (by simp [hm])
    rw [List.find?_cons_of_neg _ (by simpa using h1)]
    exact ih h2

/-- Appending the fresh empty cell to a row that has no cell for the
column makes lookup of that column find exactly the fresh cell. -/
theorem find?_append_singleton_of_none {c : String} (s : List (String × String))
    (hnone : s.find? (fun p => p.1 = c) = none) :
    (s ++ [(c, "")]).find? (fun p => p.1 = c) = some (c, "") := by
  rw [List.find?_append, hnone]
  rw [List.find?_cons_of_pos _ (by simp)]
  rfl

/-- Column membership survives the filling loop. -/
theorem fillMissing_cols_mono :
    ∀ (cs : List String) (df : KeyedFrame) (c : String),
      c ∈ df.cols → c ∈ (fillMissing df cs).cols := by
  intro cs
  induction cs with
  | nil => intro df c h; exact h
  | cons d cs ih =>
    intro df c h
    rw [fillMissing]
    by_cases hd : d ∈ df.cols
    · rw [if_pos hd]; exact ih df c h
    · rw [if_neg hd]
      exact ih _ c (by simp [h])

/-- Every column of the fill list is present after the filling loop. -/
theorem fillMissing_mem_cols :
    ∀ (cs : List String) (df : KeyedFrame) (c : String),
      c ∈ cs → c ∈ (fillMissing df cs).cols := by
  intro cs
  induction cs with
  | nil => intro df c h; cases h
  | cons d cs ih =>
    intro df c h
    rw [fillMissing]
    rcases List.mem_cons.mp h with hcd | hcs
    · subst hcd
      by_cases hd : c ∈ df.cols
      · rw [if_pos hd]; exact fillMissing_cols_mono cs df c hd
      · rw [if_neg hd]
        exact fillMissing_cols_mono cs _ c (by simp)
    · by_cases hd : d ∈ df.cols
      · rw [if_pos hd]; exact ih df c hcs
      · rw [if_neg hd]; exact ih _ c hcs

/-- The filling loop keeps the number of rows. -/
theorem fillMissing_rows_length :
    ∀ (cs : List String) (df : KeyedFrame),
      (fillMissing df cs).rows.length = df.rows.length := by
  intro cs
  induction cs with
  | nil => intro df; rfl
  | cons d cs ih =>
    intro df
    rw [fillMissing]
    by_cases hd : d ∈ df.cols
    · rw [if_pos hd]; exact ih df
    · rw [if_neg hd]
      rw [ih]
      exact List.length_map _ _

/-- A pair found in every row is still found in every row after the
filling loop, which only ever appends cells on the right. -/
theorem fillMissing_find_stable {p : String × String → Bool} {x : String × String} :
    ∀ (cs : List String) (df : KeyedFrame),
      (∀ r ∈ df.rows, r.find? p = some x) →
      ∀ r ∈ (fillMissing df cs).rows, r.find? p = some x := by
  intro cs
  induction cs with
  | nil => intro df h; exact h
  | cons d cs ih =>
    intro df h
    rw [fillMissing]
    by_cases hd : d ∈ df.cols
    · rw [if_pos hd]; exact ih df h
    · rw [if_neg hd]
      apply ih
      intro r hr
      obtain ⟨s, hs, rfl⟩ := List.mem_map.mp hr
      exact find?_append_some _ (h s hs)

/-- After the filling loop, a required column that was missing holds the
empty string in every row, provided every row's keys are exactly the
frame's columns (as gspread guarantees: all records carry the header
keys). -/
theorem fillMissing_filled :
    ∀ (cs : List String) (df : KeyedFrame) (c : String),
      cs.Nodup → c ∈ cs → c ∉ df.cols →
      (∀ r ∈ df.rows, r.map Prod.fst = df.cols) →
      ∀ r ∈ (fillMissing df cs).rows, r.find? (fun p => p.1 = c) = some (c, "") := by
  intro cs
  induction cs with
  | nil => intro df c _ h; cases h
  | cons d cs ih =>
    intro df c hnd hc hnc hinv
    obtain ⟨hdnotin, hndtail⟩ := List.nodup_cons.mp hnd
    rw [fillMissing]
    rcases List.mem_cons.mp hc with hcd | hcs
    · subst hcd
      rw [if_neg hnc]
      apply fillMissing_find_stable
      intro r hr
      obtain ⟨s, hs, rfl⟩ := List.mem_map.mp hr
      apply find?_append_singleton_of_none
      apply find?_eq_none_of_key_not_mem
      rw [hinv s hs]
      exact hnc
    · by_cases hd : d ∈ df.cols
      · rw [if_pos hd]; exact ih df c hndtail hcs hnc hinv
      · rw [if_neg hd]
        have hcd : c ≠ d := fun hEq => hdnotin (hEq ▸ hcs)
        apply ih _ c hndtail hcs
        · simp only [List.mem_append, List.mem_singleton]
          rintro (h1 | h2)
          · exact hnc h1
          · exact hcd h2
        · intro r hr
          obtain ⟨s, hs, rfl⟩ := List.mem_map.mp hr
          simp [hinv s hs]

/-- C9: `get_bookmarks` always yields a frame containing all six columns
date, title, url, category, tags, notes; on a connection or fetch failure
it returns, instead of raising, the empty frame with exactly those six
columns; and a required column absent from the fetched records is filled
deterministically with the empty string in every row (rows are the keyed
records of gspread, all carrying the header's keys). -/
theorem get_bookmarks_schema (conn : Except String (List (List (String × String)))) :
    (∀ c ∈ requiredColumns, c ∈ (get_bookmarks conn).cols) ∧
    (∀ e, conn = .error e → get_bookmarks conn = ⟨requiredColumns, []⟩) ∧
    (∀ recs, conn = .ok recs →
      (∀ r ∈ recs, r.map Prod.fst = (dfOfRecords recs).cols) →
      ∀ c ∈ requiredColumns, c ∉ (dfOfRecords recs).cols →
      getCol (get_bookmarks conn) c = List.replicate recs.length "") := by
  refine ⟨?_, ?_, ?_⟩
  · intro c hc
    cases conn with
    | error e => exact hc
    | ok recs => exact fillMissing_mem_cols requiredColumns (dfOfRecords recs) c hc
  · intro e he
    subst he
    rfl
  · intro recs hok huni c hc hnc
    subst hok
    have hfind := fillMissing_filled requiredColumns (dfOfRecords recs) c (by decide)
      hc hnc huni
    unfold getCol get_bookmarks
    rw [List.eq_replicate_iff]
    constructor
    · rw [List.length_map, fillMissing_rows_length]
      rfl
    · intro b hb
      obtain ⟨r, hr, rfl⟩ := List.mem_map.mp hb
      rw [hfind r hr]
      rfl

/-- Witness for C9: a one-record fetch whose only key is `title` yields a
frame with a `date` column filled with the empty string, and a failed
connection yields the empty six-column frame. -/
theorem get_bookmarks_schema_witness :
    "date" ∈ (get_bookmarks (.ok [[("title", "t1")]])).cols ∧
    get_bookmarks (.error "connection failed") = ⟨requiredColumns, []⟩ ∧
    getCol (get_bookmarks (.ok [[("title", "t1")]])) "date" = [""] := by
  refine ⟨?_, ?_, ?_⟩
  · exact (get_bookmarks_schema _).1 "date" (by decide)
  · exact (get_bookmarks_schema _).2.1 "connection failed" rfl
  · have hw := (get_bookmarks_schema (.ok [[("title", "t1")]])).2.2 [[("title", "t1")]]
      rfl (by decide) "date" (by decide) (by decide)
    simpa using hw

end BookMarking
